import Mathlib

/-!
# Verification of the capstone RAG pipeline

Shallow embedding of the retrieval-augmented-generation pipeline:

* `PDFProcessor._chunk_text` (src/embedding/pdf_processor.py)
* `CosmosVectorDB._create_vector_index`, `insert_documents`, `vector_search`
  (src/cosmos_vector_db.py)
* `Retrieval.search_similar_chunks` (src/retrieval/retrieve_documents.py)
* `get_response` (src/agents/autogen_module.py and src/autogen_module.py)

Pure Python functions are translated to Lean functions; backend calls
(MongoDB commands, OpenAI completions) are passed in as explicit
`Except`-valued oracles, and the commands the code issues are returned
alongside the result so that theorems can speak about what was sent to the
backend.  Machine integers are `Nat`/`Int` (no overflow is relevant here)
and rationals `ℚ` stand in for the float similarity scores.
-/

set_option autoImplicit false

/-- Decidable equality on `Except`, used to evaluate the embedded fallible
functions on concrete inputs. -/
instance {ε α : Type} [DecidableEq ε] [DecidableEq α] : DecidableEq (Except ε α) := fun x y =>
  match x, y with
  | .ok a, .ok b =>
    if h : a = b then .isTrue (by rw [h]) else .isFalse (by simp [h])
  | .error a, .error b =>
    if h : a = b then .isTrue (by rw [h]) else .isFalse (by simp [h])
  | .ok _, .error _ => .isFalse (by simp)
  | .error _, .ok _ => .isFalse (by simp)

namespace Capstone

/-! ## String helpers

Python's `in` operator on strings (substring test) and `str.startswith`,
modelled on the character lists of the strings. -/

/-- `leadsWith s p` holds when the pattern `p` is an initial segment of `s`. -/
def leadsWith : List Char → List Char → Bool
  | _, [] => true
  | [], _ :: _ => false
  | c :: cs, p :: ps => c == p && leadsWith cs ps

/-- `hasSub s p`: `p` occurs as a contiguous segment of `s`. -/
def hasSub : List Char → List Char → Bool
  | [], p => p.isEmpty
  | c :: cs, p => leadsWith (c :: cs) p || hasSub cs p

/-- Python `pat in s` for strings. -/
def strContains (s pat : String) : Bool :=
  hasSub s.data pat.data

/-- Python `s.startswith(pat)`. -/
def strStarts (s pat : String) : Bool :=
  leadsWith s.data pat.data

/-- Python whitespace characters recognised by `str.split()`. -/
def isPySpace (c : Char) : Bool :=
  c == ' ' || c == '\t' || c == '\n' || c == '\r' || c == '\x0b' || c == '\x0c'

/-- Helper for `pySplit`: walks the characters accumulating the current word
(in reverse). -/
def pySplitAux : List Char → List Char → List String
  | [], acc => if acc.isEmpty then [] else [String.mk acc.reverse]
  | c :: cs, acc =>
    if isPySpace c then
      if acc.isEmpty then pySplitAux cs []
      else String.mk acc.reverse :: pySplitAux cs []
    else pySplitAux cs (c :: acc)

/-- Python `text.split()`: splits on runs of whitespace, discarding empty
tokens. -/
def pySplit (text : String) : List String :=
  pySplitAux text.data []

/-! ## The chunker (`PDFProcessor._chunk_text`)

```python
def _chunk_text(self, text, chunk_size, overlap):
    words = text.split()
    chunks = []
    for i in range(0, len(words), chunk_size - overlap):
        chunk = " ".join(words[i:i + chunk_size])
        chunks.append(chunk)
    return chunks
```

`range(0, n, step)` for `step > 0` enumerates `0, step, 2*step, …` while
below `n`; it has `⌈n / step⌉` elements.  For `step = 0` Python raises
`ValueError`; for `step < 0` (i.e. `overlap > chunk_size`) the range is
empty.  The whole iteration is captured by `rangeStep`, and the fallible
behaviour by an `Except` result. -/

/-- Python `range(0, n, s)` for a positive step `s`: the `⌈n/s⌉` multiples
of `s` below `n`. -/
def rangeStep (n s : Nat) : List Nat :=
  (List.range ((n + s - 1) / s)).map (· * s)

/-- The token windows underlying `_chunk_text`: for each start offset the
next `chunkSize` words. -/
def chunkWindows (words : List String) (chunkSize overlap : Nat) : List (List String) :=
  (rangeStep words.length (chunkSize - overlap)).map
    (fun i => (words.drop i).take chunkSize)

/-- `PDFProcessor._chunk_text`.  The `Int` subtraction `chunk_size - overlap`
of the Python source is split into the three sign cases of the step:
zero step makes `range` raise `ValueError`, a negative step makes the loop
body never run, a positive step produces the joined windows. -/
def chunk_text (text : String) (chunkSize overlap : Nat) : Except String (List String) :=
  let words := pySplit text
  if chunkSize = overlap then
    .error "ValueError: range() arg 3 must not be zero"
  else if chunkSize < overlap then
    .ok []
  else
    .ok ((chunkWindows words chunkSize overlap).map (String.intercalate " "))

example : pySplit "hello  world\n x" = ["hello", "world", "x"] := by decide
example : rangeStep 5 2 = [0, 2, 4] := by decide
example : chunk_text "a b c d e" 2 1 =
    .ok ["a b", "b c", "c d", "d e", "e"] := by decide
example : chunk_text "a b c" 2 2 =
    .error "ValueError: range() arg 3 must not be zero" := by decide
example : chunk_text "a b c" 2 3 = .ok [] := by decide

/-! ## MongoDB documents

Stored documents and query results are BSON-like dictionaries; we model
them as association lists from field names to values.  Only the value
shapes the claims need are distinguished: strings, numbers (similarity
scores as `ℚ`), embedding arrays and `null`. -/

/-- A BSON value, as far as the claims are concerned. -/
inductive BVal : Type where
  | str (s : String)
  | num (q : ℚ)
  | arr (l : List ℚ)
  | null
  deriving DecidableEq, Repr

/-- A MongoDB document: an association list of field name / value pairs. -/
abbrev MDoc : Type := List (String × BVal)

/-- Field access on a document (first binding wins, as in a dict). -/
def mlookup : MDoc → String → Option BVal
  | [], _ => none
  | (k, v) :: rest, key => if k = key then some v else mlookup rest key

/-- The field names of a document. -/
def mkeys (d : MDoc) : List String := d.map Prod.fst

/-- Length of the `embedding` array of a stored document, when present. -/
def embLen (d : MDoc) : Option Nat :=
  match mlookup d "embedding" with
  | some (.arr l) => some l.length
  | _ => none

/-! ## The `$project` stages

`CosmosVectorDB.vector_search` projects

```python
{"_id": 0,
 "content": {"$ifNull": ["$content", "$text_chunk"]},
 "source": 1, "page": 1, "chunk_index": 1,
 "similarity_score": {"$meta": "searchScore"}}
```

`Retrieval.search_similar_chunks` projects

```python
{"_id": 0, "chunk_id": 1, "text": 1, "embedding": 1,
 "similarity_score": {"$meta": "searchScore"}}
```

An inclusion (`field: 1`) copies the field when the input document has it;
`$ifNull` returns the first operand that is neither null nor missing, and
otherwise the last operand's result (the output field is omitted when that
result is itself missing); `$meta: "searchScore"` attaches the search
score. -/

/-- Inclusion projection of a single field: kept iff present in the input. -/
def keepField (d : MDoc) (k : String) : MDoc :=
  match mlookup d k with
  | some v => [(k, v)]
  | none => []

/-- The computed `content` field: `{"$ifNull": ["$content", "$text_chunk"]}`. -/
def projContent (d : MDoc) : MDoc :=
  match mlookup d "content" with
  | some .null =>
    (match mlookup d "text_chunk" with
     | some w => [("content", w)]
     | none => [])
  | some v => [("content", v)]
  | none =>
    (match mlookup d "text_chunk" with
     | some w => [("content", w)]
     | none => [])

/-- The `$project` stage of `CosmosVectorDB.vector_search`, applied to one
matched document carrying search score `score`. -/
def projectVectorSearch (score : ℚ) (d : MDoc) : MDoc :=
  projContent d ++ keepField d "source" ++ keepField d "page" ++
    keepField d "chunk_index" ++ [("similarity_score", .num score)]

/-- The `$project` stage of `Retrieval.search_similar_chunks`. -/
def projectSearchChunks (score : ℚ) (d : MDoc) : MDoc :=
  keepField d "chunk_id" ++ keepField d "text" ++ keepField d "embedding" ++
    [("similarity_score", .num score)]

/-! ## The `$search / cosmosSearch` stage

The backend's approximate k-nearest-neighbour stage: ranks the stored
documents by similarity to the query vector, descending, and keeps the
top `k`.  The similarity metric itself (cosine over float vectors) lives in
the backend, so it enters the model as a scoring function. -/

/-- Insert a document into a list that is sorted by descending score. -/
def insertDesc {α : Type} (key : α → ℚ) (x : α) : List α → List α
  | [] => [x]
  | y :: ys => if key y < key x then x :: y :: ys else y :: insertDesc key x ys

/-- Sort by descending score (insertion sort; stable, so score ties retain
the backend order, as the spec's tie-break note requires). -/
def sortDesc {α : Type} (key : α → ℚ) : List α → List α
  | [] => []
  | x :: xs => insertDesc key x (sortDesc key xs)

/-- The `cosmosSearch` stage: all stored documents ranked by `score`
descending, truncated to `k`. -/
def cosmosSearchSem (score : MDoc → ℚ) (k : Nat) (coll : List MDoc) : List MDoc :=
  (sortDesc score coll).take k

/-- The whole aggregation pipeline of `CosmosVectorDB.vector_search` on a
functioning backend: `cosmosSearch` followed by its `$project` stage. -/
def vectorSearchAgg (score : MDoc → ℚ) (k : Nat) (coll : List MDoc) : List MDoc :=
  (cosmosSearchSem score k coll).map (fun d => projectVectorSearch (score d) d)

/-- The aggregation pipeline of `Retrieval.search_similar_chunks`
(same `cosmosSearch` stage, its own `$project` stage).  The Python method
has no `try/except`: it returns the backend's matches as-is. -/
def search_similar_chunks (score : MDoc → ℚ) (k : Nat) (coll : List MDoc) : List MDoc :=
  (cosmosSearchSem score k coll).map (fun d => projectSearchChunks (score d) d)

/-- `CosmosVectorDB.vector_search`: returns whatever `aggregate` produced,
and `[]` when it raised (`except Exception: … return []`). -/
def vector_search (agg : Except String (List MDoc)) : List MDoc :=
  match agg with
  | .ok results => results
  | .error _ => []

/-- The similarity score a projected result carries. -/
def scoreOf (d : MDoc) : Option ℚ :=
  match mlookup d "similarity_score" with
  | some (.num q) => some q
  | _ => none

/-! ## `CosmosVectorDB.insert_documents`

```python
if not documents: return 0
try:
    result = self.collection.insert_many(documents)
    return len(result.inserted_ids)
except Exception as e:
    return 0
```

The backend bulk write is an oracle from the batch to the list of inserted
ids (or an exception); the result records the returned count and the
batches actually sent to the backend. -/

/-- `CosmosVectorDB.insert_documents`: returns the reported inserted count
together with the list of bulk writes issued to the backend. -/
def insert_documents (insertMany : List MDoc → Except String (List Nat))
    (documents : List MDoc) : Nat × List (List MDoc) :=
  if documents.isEmpty then (0, [])
  else
    match insertMany documents with
    | .ok ids => (ids.length, [documents])
    | .error _ => (0, [documents])

/-! ## `CosmosVectorDB._create_vector_index`

The method inspects the existing indexes, and when no vector index covers
the `embedding` field it issues a `createIndexes` command built from
`self.vector_index_type`.  When any step of the `try` block raises, the
handler inspects the message: a "hnsw index is not supported" failure
triggers exactly one retry with a `vector-ivf` index (`numLists = 100`,
the configured dimensions, cosine similarity) and, on success, rewrites
`self.vector_index_type` to `'ivf'`; "already exists" and all other
failures leave the state alone. -/

/-- The `cosmosSearchOptions` of a `createIndexes` command.  The Python
dict gains `numLists` when the kind contains `'ivf'`, else `m` and
`efConstruction` when it contains `'hnsw'`. -/
structure CosmosSearchOptions where
  kind : String
  dimensions : Nat
  similarity : String
  numLists : Option Nat
  m : Option Nat
  efConstruction : Option Nat
  deriving DecidableEq, Repr

/-- One index specification of a `createIndexes` command. -/
structure IndexSpec where
  name : String
  keyField : String
  options : CosmosSearchOptions
  deriving DecidableEq, Repr

/-- Options built in the main path of `_create_vector_index` for the
prefixed kind `indexKind`. -/
def mkOptions (indexKind : String) (dims : Nat) : CosmosSearchOptions where
  kind := indexKind
  dimensions := dims
  similarity := "COS"
  numLists := if strContains indexKind "ivf" then some 100 else none
  m :=
    if strContains indexKind "ivf" then none
    else if strContains indexKind "hnsw" then some 16 else none
  efConstruction :=
    if strContains indexKind "ivf" then none
    else if strContains indexKind "hnsw" then some 64 else none

/-- The `createIndexes` specification of the main path, for the configured
`vector_index_type` (prefixed with `vector-` when it is not already). -/
def mainIndexSpec (vectorIndexType : String) (dims : Nat) : IndexSpec where
  name := "vector_index"
  keyField := "embedding"
  options :=
    mkOptions
      (if strStarts vectorIndexType "vector-" then vectorIndexType
       else "vector-" ++ vectorIndexType)
      dims

/-- The hard-coded IVF retry specification of the fallback path. -/
def ivfFallbackSpec (dims : Nat) : IndexSpec where
  name := "vector_index"
  keyField := "embedding"
  options :=
    { kind := "vector-ivf"
      numLists := some 100
      dimensions := dims
      similarity := "COS"
      m := none
      efConstruction := none }

/-- The `except Exception as e:` handler of `_create_vector_index`.
`issued` are the `createIndexes` commands already sent.  Returns the new
`vector_index_type` and all commands sent. -/
def handleIndexError (createIndex : IndexSpec → Except String Unit)
    (vectorIndexType : String) (dims : Nat) (e : String)
    (issued : List IndexSpec) : String × List IndexSpec :=
  if strContains e "hnsw index is not supported" then
    match createIndex (ivfFallbackSpec dims) with
    | .ok _ => ("ivf", issued ++ [ivfFallbackSpec dims])
    | .error _ => (vectorIndexType, issued ++ [ivfFallbackSpec dims])
  else
    (vectorIndexType, issued)

/-- `CosmosVectorDB._create_vector_index`.  `listIndexes` yields, for each
existing index, its key field names (`idx.get('key', {})`); `createIndex`
is the backend's `createIndexes` command.  Returns the resulting
`self.vector_index_type` together with every `createIndexes` command
issued. -/
def create_vector_index (listIndexes : Except String (List (List String)))
    (createIndex : IndexSpec → Except String Unit)
    (vectorIndexType : String) (dims : Nat) : String × List IndexSpec :=
  match listIndexes with
  | .error e => handleIndexError createIndex vectorIndexType dims e []
  | .ok idxs =>
    if idxs.any (fun keys => keys.contains "embedding") then
      (vectorIndexType, [])
    else
      let spec := mainIndexSpec vectorIndexType dims
      match createIndex spec with
      | .ok _ => (vectorIndexType, [spec])
      | .error e => handleIndexError createIndex vectorIndexType dims e [spec]

example :
    mainIndexSpec "hnsw" 1536 =
      { name := "vector_index", keyField := "embedding",
        options := { kind := "vector-hnsw", dimensions := 1536,
                     similarity := "COS", numLists := none,
                     m := some 16, efConstruction := some 64 } } := by decide

/-! ## The query orchestrators

`src/agents/autogen_module.py` wraps the primary generation call in an
`AssistantAgent` (which catches any exception and returns `None`), falls
back to a direct chat completion when the agent's answer is falsy
(`None` or the empty string), and catches everything else with a fixed
user-safe message.  `src/autogen_module.py` is the older path without
the agent and without a safe message: its handler interpolates the raw
exception into the returned string.

A generation capability is an oracle from the prompt to either an
exception or the (possibly `None`) message content.  `get_response`
returns, next to the Python return value, the list of prompts actually
sent to the fallback capability, so theorems can state that the fallback
was invoked exactly once and with which prompt. -/

/-- Python truthiness of an optional string (`None` and `""` are falsy). -/
def truthy : Option String → Bool
  | none => false
  | some s => s != ""

/-- The fixed user-safe message of `agents/autogen_module.get_response`. -/
def fixedErrorMsg : String :=
  "❌ An error occurred while processing your request. Please try again later."

/-- The system message the module wires into its `AssistantAgent`. -/
def agentSystemMessage : String :=
  "You are a helpful mobile store assistant. Answer concisely using any retrieved context."

/-- The prompt `AssistantAgent.get_response` builds. -/
def agentPrompt (systemMessage context userQuery : String) : String :=
  "\n" ++ systemMessage ++ "\nContext:\n" ++ context ++
    "\n\nQuestion: " ++ userQuery ++ "\nAnswer:\n"

/-- The self-contained prompt the orchestrator builds for the fallback
completion call. -/
def orchPrompt (context userQuery : String) : String :=
  "\nYou are a helpful mobile store assistant.\nUse the context below to answer the user\x27s query concisely and accurately.\nDo not answer if the question is unrelated to the context.\nAnswer in a professional manner and check the database carefully before answering.\n\nContext:\n"
    ++ context ++ "\n\nQuestion: " ++ userQuery ++ "\nAnswer:\n"

/-- `"\n\n".join([c["text"] for c in top_chunks])`: each chunk must carry a
string under `"text"`, otherwise the comprehension raises (`KeyError` /
`TypeError`), which the callers' handlers then catch. -/
def chunkTexts (chunks : List MDoc) : Except String (List String) :=
  chunks.mapM (fun c =>
    match mlookup c "text" with
    | some (.str s) => Except.ok s
    | some _ => Except.error "TypeError: sequence item is not str"
    | none => Except.error "KeyError: \x27text\x27")

/-- `AssistantAgent.get_response`: builds its prompt from the system
message, context and query, calls the model, and turns any exception into
`None`. -/
def assistantGetResponse (modelCall : String → Except String (Option String))
    (systemMessage userQuery context : String) : Option String :=
  match modelCall (agentPrompt systemMessage context userQuery) with
  | .ok r => r
  | .error _ => none

namespace Agents

/-- `get_response` of src/agents/autogen_module.py.  `search` is the
retrieval outcome, `primary` the model call made by the `AssistantAgent`,
`fallback` the direct chat-completion call.  Returns the Python return
value paired with the prompts sent to the fallback capability. -/
def get_response (search : Except String (List MDoc))
    (primary fallback : String → Except String (Option String))
    (userQuery : String) : Option String × List String :=
  match search with
  | .error _ => (some fixedErrorMsg, [])
  | .ok topChunks =>
    match chunkTexts topChunks with
    | .error _ => (some fixedErrorMsg, [])
    | .ok texts =>
      let context := if topChunks.isEmpty then "" else String.intercalate "\n\n" texts
      let prompt := orchPrompt context userQuery
      let agentResponse := assistantGetResponse primary agentSystemMessage userQuery context
      if truthy agentResponse then (agentResponse, [])
      else
        match fallback prompt with
        | .ok r => (r, [prompt])
        | .error _ => (some fixedErrorMsg, [prompt])

end Agents

/-- The prompt of the legacy orchestrator. -/
def legacyPrompt (context userQuery : String) : String :=
  "\nYou are a helpful mobile store assistant.\nUse the context below to answer user\x27s query concisely and accurately.\n\nContext:\n"
    ++ context ++ "\n\nQuestion: " ++ userQuery ++ "\nAnswer:\n"

/-- Prefix of the error string the legacy handler returns
(`f"❌ Error generating response: {e}"`). -/
def legacyErrPre : String := "❌ Error generating response: "

namespace Legacy

/-- `get_response` of src/autogen_module.py: no agent wrapper, no second
generation capability, and the `except` branch returns the exception text
interpolated into the reply. -/
def get_response (search : Except String (List MDoc))
    (gen : String → Except String (Option String))
    (userQuery : String) : Option String :=
  match search with
  | .error e => some (legacyErrPre ++ e)
  | .ok topChunks =>
    if topChunks.isEmpty then
      some "⚠️ Sorry, I could not find relevant information in the PDF."
    else
      match chunkTexts topChunks with
      | .error e => some (legacyErrPre ++ e)
      | .ok texts =>
        let context := String.intercalate "\n\n" texts
        match gen (legacyPrompt context userQuery) with
        | .ok r => r
        | .error e => some (legacyErrPre ++ e)

end Legacy

/-! ## Lemmas about the chunker -/

theorem rangeStep_succ (s n : Nat) (hs : 0 < s) (hn : 0 < n) :
    rangeStep n s = 0 :: (rangeStep (n - s) s).map (· + s) := by
  have h1 : (n + s - 1) / s = (n - 1) / s + 1 := by
    have he : n + s - 1 = (n - 1) + s := by omega
    rw [he, Nat.add_div_right _ hs]
  have h2 : (n - s + s - 1) / s = (n - 1) / s := by
    rcases le_or_lt s n with h | h
    · congr 1
      omega
    · have hns : n - s = 0 := by omega
      rw [hns, Nat.zero_add, Nat.div_eq_of_lt (by omega), Nat.div_eq_of_lt (by omega)]
  unfold rangeStep
  rw [h1, h2, List.range_succ_eq_map]
  simp [List.map_map, Function.comp, Nat.succ_mul]

theorem chunkWindows_nil (cs ov : Nat) : chunkWindows [] cs ov = [] := by
  rcases Nat.eq_zero_or_pos (cs - ov) with h | h
  · simp [chunkWindows, rangeStep, h]
  · simp [chunkWindows, rangeStep, Nat.div_eq_of_lt (show cs - ov - 1 < cs - ov by omega)]

theorem chunkWindows_eq_nil (cs ov : Nat) (h : ov < cs) (ws : List String) :
    chunkWindows ws cs ov = [] ↔ ws = [] := by
  have hs : 0 < cs - ov := by omega
  rw [chunkWindows, List.map_eq_nil_iff, rangeStep, List.map_eq_nil_iff, List.range_eq_nil,
    Nat.div_eq_zero_iff hs]
  constructor
  · intro hlt
    exact List.length_eq_zero.mp (by omega)
  · intro h2
    subst h2
    simpa using by omega

theorem chunkWindows_cons (cs ov : Nat) (h : ov < cs) (ws : List String) (hw : ws ≠ []) :
    chunkWindows ws cs ov =
      ws.take cs :: chunkWindows (ws.drop (cs - ov)) cs ov := by
  have hs : 0 < cs - ov := by omega
  have hn : 0 < ws.length := List.length_pos.mpr hw
  unfold chunkWindows
  rw [rangeStep_succ _ _ hs hn]
  simp [List.map_map, Function.comp, List.drop_drop, List.length_drop, Nat.add_comm]

/-- Reconstruction: the first `chunkSize - overlap` tokens of every window
except the last, followed by the whole last window, give back the word
sequence.  Stated with an explicit length bound for the induction. -/
theorem chunkWindows_reconstruct_aux (cs ov : Nat) (h : ov < cs) :
    ∀ (n : Nat) (ws : List String), ws.length ≤ n →
      ((chunkWindows ws cs ov).dropLast.map (fun c => c.take (cs - ov))).flatten
        ++ (chunkWindows ws cs ov).getLastD [] = ws := by
  intro n
  induction n with
  | zero =>
    intro ws hlen
    have hnil : ws = [] := List.length_eq_zero.mp (by omega)
    subst hnil
    simp [chunkWindows_nil]
  | succ n ih =>
    intro ws hlen
    by_cases hw : ws = []
    · subst hw
      simp [chunkWindows_nil]
    · rw [chunkWindows_cons cs ov h ws hw]
      by_cases htail : chunkWindows (ws.drop (cs - ov)) cs ov = []
      · have hdrop : ws.drop (cs - ov) = [] :=
          (chunkWindows_eq_nil cs ov h _).mp htail
        have hlen2 : ws.length ≤ cs - ov := by
          have hl := congrArg List.length hdrop
          simp at hl
          omega
        rw [htail]
        simp only [List.dropLast_single, List.map_nil, List.flatten_nil,
          List.nil_append, List.getLastD_cons, List.getLastD_nil]
        exact List.take_of_length_le (by omega)
      · obtain ⟨t, ts, htt⟩ := List.exists_cons_of_ne_nil htail
        have hIH :=
          ih (ws.drop (cs - ov)) (by simp [List.length_drop]; omega)
        rw [htt] at hIH ⊢
        rw [List.dropLast_cons₂, List.map_cons, List.flatten_cons,
          List.getLastD_cons, List.getLastD_cons]
        rw [List.getLastD_cons] at hIH
        have htake : (ws.take cs).take (cs - ov) = ws.take (cs - ov) := by
          rw [List.take_take, Nat.min_eq_left (by omega)]
        rw [htake, List.append_assoc, hIH, List.take_append_drop]

/-- Reconstruction for an arbitrary word list. -/
theorem chunkWindows_reconstruct (cs ov : Nat) (h : ov < cs) (ws : List String) :
    ((chunkWindows ws cs ov).dropLast.map (fun c => c.take (cs - ov))).flatten
      ++ (chunkWindows ws cs ov).getLastD [] = ws :=
  chunkWindows_reconstruct_aux cs ov h ws.length ws le_rfl

/-- Each window sits at offset `i * (chunkSize - overlap)` and takes the
next `chunkSize` words. -/
theorem chunkWindows_get (cs ov : Nat) (ws : List String) (i : Nat)
    (hi : i < (chunkWindows ws cs ov).length) :
    (chunkWindows ws cs ov)[i] = (ws.drop (i * (cs - ov))).take cs := by
  simp [chunkWindows, rangeStep]

/-! ## Lemmas about document lookups and the projections -/

theorem mlookup_append_of_some (l1 l2 : MDoc) (k : String) (v : BVal)
    (h : mlookup l1 k = some v) : mlookup (l1 ++ l2) k = some v := by
  induction l1 with
  | nil => simp [mlookup] at h
  | cons p rest ih =>
    obtain ⟨a, b⟩ := p
    rw [mlookup] at h
    rw [List.cons_append, mlookup]
    by_cases hak : a = k
    · rwa [if_pos hak] at h ⊢
    · rw [if_neg hak] at h ⊢
      exact ih h

theorem mlookup_append_of_none (l1 l2 : MDoc) (k : String)
    (h : mlookup l1 k = none) : mlookup (l1 ++ l2) k = mlookup l2 k := by
  induction l1 with
  | nil => rfl
  | cons p rest ih =>
    obtain ⟨a, b⟩ := p
    rw [mlookup] at h
    rw [List.cons_append, mlookup]
    by_cases hak : a = k
    · rw [if_pos hak] at h
      exact absurd h (by simp)
    · rw [if_neg hak] at h ⊢
      exact ih h

theorem mlookup_keepField_self (d : MDoc) (f : String) :
    mlookup (keepField d f) f = mlookup d f := by
  unfold keepField
  cases mlookup d f <;> simp [mlookup]

theorem mlookup_keepField_ne (d : MDoc) (f k : String) (h : f ≠ k) :
    mlookup (keepField d f) k = none := by
  unfold keepField
  cases mlookup d f <;> simp [mlookup, h]

theorem projContent_of_some (d : MDoc) (v : BVal)
    (hv : mlookup d "content" = some v) (hnn : v ≠ .null) :
    projContent d = [("content", v)] := by
  unfold projContent
  rw [hv]
  cases v with
  | null => exact absurd rfl hnn
  | str s => rfl
  | num q => rfl
  | arr l => rfl

theorem projContent_of_none (d : MDoc) (h : mlookup d "content" = none) :
    projContent d =
      (match mlookup d "text_chunk" with
       | some w => [("content", w)]
       | none => []) := by
  unfold projContent
  rw [h]

theorem mlookup_projContent_ne (d : MDoc) (k : String) (h : k ≠ "content") :
    mlookup (projContent d) k = none := by
  unfold projContent
  cases hv : mlookup d "content" with
  | none => cases hw : mlookup d "text_chunk" <;> simp [mlookup, Ne.symm h]
  | some v =>
    cases v <;> (try cases hw : mlookup d "text_chunk") <;> simp [mlookup, Ne.symm h]

theorem all_keepField (d : MDoc) (f : String) (p : String → Bool) (hp : p f = true) :
    (keepField d f).all (fun kv => p kv.1) = true := by
  unfold keepField
  cases mlookup d f <;> simp [hp]

theorem all_projContent (d : MDoc) (p : String → Bool) (hp : p "content" = true) :
    (projContent d).all (fun kv => p kv.1) = true := by
  unfold projContent
  cases hv : mlookup d "content" with
  | none => cases hw : mlookup d "text_chunk" <;> simp [hp]
  | some v =>
    cases v <;> (try cases hw : mlookup d "text_chunk") <;> simp [hp]

/-! ## Lemmas about the ranking -/

theorem mem_insertDesc {α : Type} (key : α → ℚ) (x b : α) (l : List α) :
    b ∈ insertDesc key x l ↔ b = x ∨ b ∈ l := by
  induction l with
  | nil => simp [insertDesc]
  | cons y ys ih =>
    rw [insertDesc]
    by_cases h : key y < key x
    · rw [if_pos h]
      simp only [List.mem_cons]
    · rw [if_neg h]
      simp only [List.mem_cons, ih]
      tauto

theorem pairwise_insertDesc {α : Type} (key : α → ℚ) (x : α) (l : List α)
    (hl : l.Pairwise (fun a b => key b ≤ key a)) :
    (insertDesc key x l).Pairwise (fun a b => key b ≤ key a) := by
  induction l with
  | nil => simp [insertDesc]
  | cons y ys ih =>
    rw [List.pairwise_cons] at hl
    obtain ⟨hy, hys⟩ := hl
    rw [insertDesc]
    by_cases h : key y < key x
    · rw [if_pos h, List.pairwise_cons]
      refine ⟨?_, List.Pairwise.cons hy hys⟩
      intro b hb
      rcases List.mem_cons.mp hb with rfl | hb
      · exact le_of_lt h
      · exact le_trans (hy b hb) (le_of_lt h)
    · rw [if_neg h, List.pairwise_cons]
      refine ⟨?_, ih hys⟩
      intro b hb
      rcases (mem_insertDesc key x b ys).mp hb with rfl | hb
      · exact le_of_not_lt h
      · exact hy b hb

theorem pairwise_sortDesc {α : Type} (key : α → ℚ) (l : List α) :
    (sortDesc key l).Pairwise (fun a b => key b ≤ key a) := by
  induction l with
  | nil => simp [sortDesc]
  | cons x xs ih => exact pairwise_insertDesc key x _ ih

theorem mlookup_projectVectorSearch_score (q : ℚ) (d : MDoc) :
    mlookup (projectVectorSearch q d) "similarity_score" = some (.num q) := by
  have hA : mlookup (projContent d) "similarity_score" = none :=
    mlookup_projContent_ne _ _ (by decide)
  have hAB :
      mlookup (projContent d ++ keepField d "source") "similarity_score" = none := by
    rw [mlookup_append_of_none _ _ _ hA]
    exact mlookup_keepField_ne _ _ _ (by decide)
  have hABC :
      mlookup (projContent d ++ keepField d "source" ++ keepField d "page")
        "similarity_score" = none := by
    rw [mlookup_append_of_none _ _ _ hAB]
    exact mlookup_keepField_ne _ _ _ (by decide)
  have hABCD :
      mlookup (projContent d ++ keepField d "source" ++ keepField d "page" ++
        keepField d "chunk_index") "similarity_score" = none := by
    rw [mlookup_append_of_none _ _ _ hABC]
    exact mlookup_keepField_ne _ _ _ (by decide)
  unfold projectVectorSearch
  rw [mlookup_append_of_none _ _ _ hABCD]
  simp [mlookup]

theorem scoreOf_projectVectorSearch (q : ℚ) (d : MDoc) :
    scoreOf (projectVectorSearch q d) = some q := by
  unfold scoreOf
  rw [mlookup_projectVectorSearch_score]

theorem mlookup_projectVectorSearch_ne (q : ℚ) (d : MDoc) (k : String)
    (h1 : k ≠ "content") (h2 : "source" ≠ k) (h3 : "page" ≠ k)
    (h4 : "chunk_index" ≠ k) (h5 : "similarity_score" ≠ k) :
    mlookup (projectVectorSearch q d) k = none := by
  have hA : mlookup (projContent d) k = none := mlookup_projContent_ne d k h1
  have hAB : mlookup (projContent d ++ keepField d "source") k = none := by
    rw [mlookup_append_of_none _ _ _ hA]
    exact mlookup_keepField_ne _ _ _ h2
  have hABC :
      mlookup (projContent d ++ keepField d "source" ++ keepField d "page") k = none := by
    rw [mlookup_append_of_none _ _ _ hAB]
    exact mlookup_keepField_ne _ _ _ h3
  have hABCD :
      mlookup (projContent d ++ keepField d "source" ++ keepField d "page" ++
        keepField d "chunk_index") k = none := by
    rw [mlookup_append_of_none _ _ _ hABC]
    exact mlookup_keepField_ne _ _ _ h4
  unfold projectVectorSearch
  rw [mlookup_append_of_none _ _ _ hABCD]
  simp [mlookup, h5]

/-! ## Concrete backends used to evaluate the theorems -/

/-- A backend whose `createIndexes` rejects exactly the HNSW kind with the
message the handler looks for, and accepts everything else. -/
def demoCreateIndex : IndexSpec → Except String Unit := fun spec =>
  if spec.options.kind = "vector-hnsw" then
    .error "Error: hnsw index is not supported on this cluster tier"
  else .ok ()

/-! ## Claim C1 -/

/-- C1: when no vector index exists yet, the store is configured for
`hnsw`, and the backend rejects the HNSW `createIndexes` command with a
"hnsw index is not supported" error while accepting the IVF retry,
`_create_vector_index` issues exactly two `createIndexes` commands — the
`vector-hnsw` one (`m = 16`, `efConstruction = 64`) and then exactly one
retry with `vector-ivf`, `numLists = 100`, the configured dimensions and
cosine similarity — and afterwards `self.vector_index_type` is `'ivf'`,
not `'hnsw'`. -/
theorem create_vector_index_hnsw_fallback
    (idxs : List (List String)) (createIndex : IndexSpec → Except String Unit)
    (dims : Nat) (e : String)
    (hnone : idxs.any (fun keys => keys.contains "embedding") = false)
    (hfail : createIndex (mainIndexSpec "hnsw" dims) = .error e)
    (hmsg : strContains e "hnsw index is not supported" = true)
    (hivf : createIndex (ivfFallbackSpec dims) = .ok ()) :
    create_vector_index (.ok idxs) createIndex "hnsw" dims =
      ("ivf", [mainIndexSpec "hnsw" dims, ivfFallbackSpec dims])
    ∧ (mainIndexSpec "hnsw" dims).options.kind = "vector-hnsw"
    ∧ (mainIndexSpec "hnsw" dims).options.m = some 16
    ∧ (mainIndexSpec "hnsw" dims).options.efConstruction = some 64
    ∧ ivfFallbackSpec dims =
        { name := "vector_index", keyField := "embedding",
          options := { kind := "vector-ivf", numLists := some 100,
                       dimensions := dims, similarity := "COS",
                       m := none, efConstruction := none } } := by
  refine ⟨?_, rfl, rfl, rfl, rfl⟩
  simp only [create_vector_index]
  rw [hnone]
  simp only [Bool.false_eq_true, if_false, hfail]
  unfold handleIndexError
  rw [hmsg]
  simp only [if_true, hivf, List.singleton_append]

theorem create_vector_index_hnsw_fallback_witness :
    create_vector_index (.ok [["_id"]]) demoCreateIndex "hnsw" 1536 =
      ("ivf", [mainIndexSpec "hnsw" 1536, ivfFallbackSpec 1536])
    ∧ (mainIndexSpec "hnsw" 1536).options.kind = "vector-hnsw" :=
  ⟨(create_vector_index_hnsw_fallback [["_id"]] demoCreateIndex 1536
      "Error: hnsw index is not supported on this cluster tier"
      (by decide) (by decide) (by decide) (by decide)).1,
   (create_vector_index_hnsw_fallback [["_id"]] demoCreateIndex 1536
      "Error: hnsw index is not supported on this cluster tier"
      (by decide) (by decide) (by decide) (by decide)).2.1⟩

/-! ## Claim C2 -/

/-- C2 counterexample: with `chunk_size = 2` and `overlap = 3` the Python
loop runs over `range(0, 3, -1)`, which is empty, so `_chunk_text`
silently returns an empty chunk list for the non-empty text `"a b c"` —
no configuration error is raised. -/
theorem chunk_text_overlap_silent_empty_cex :
    pySplit "a b c" ≠ [] ∧ chunk_text "a b c" 2 3 = .ok [] :=
  ⟨by decide, by decide⟩

/-- C2 amended: the chunker never validates the overlap.  For
`overlap > chunkSize` it silently returns an empty chunk list (even for
non-empty input); for `overlap = chunkSize` the `range` call raises a bare
`ValueError` (not a configuration error); only for `overlap < chunkSize`
is the output non-empty whenever the input has at least one token.  It
never loops forever (the embedding is total). -/
theorem chunk_text_bad_overlap (text : String) (chunkSize overlap : Nat) :
    (chunkSize = overlap →
      chunk_text text chunkSize overlap =
        .error "ValueError: range() arg 3 must not be zero")
    ∧ (chunkSize < overlap → chunk_text text chunkSize overlap = .ok [])
    ∧ (overlap < chunkSize → pySplit text ≠ [] →
        ∀ l, chunk_text text chunkSize overlap = .ok l → l ≠ []) := by
  refine ⟨?_, ?_, ?_⟩
  · intro h
    simp [chunk_text, h]
  · intro h
    unfold chunk_text
    rw [if_neg (by omega), if_pos h]
  · intro h hws l hl
    simp only [chunk_text] at hl
    rw [if_neg (by omega), if_neg (by omega)] at hl
    injection hl with hl
    subst hl
    intro hmap
    exact hws ((chunkWindows_eq_nil _ _ h _).mp (List.map_eq_nil_iff.mp hmap))

theorem chunk_text_bad_overlap_witness :
    chunk_text "a b" 2 2 = .error "ValueError: range() arg 3 must not be zero"
    ∧ chunk_text "a b" 2 3 = .ok []
    ∧ (["a b", "b"] : List String) ≠ [] :=
  ⟨(chunk_text_bad_overlap "a b" 2 2).1 rfl,
   (chunk_text_bad_overlap "a b" 2 3).2.1 (by decide),
   (chunk_text_bad_overlap "a b" 2 1).2.2 (by decide) (by decide)
     ["a b", "b"] (by decide)⟩

/-! ## Claim C3 -/

/-- C3: for `chunkSize > 0` and `0 ≤ overlap < chunkSize` the chunker
succeeds and returns the space-joined token windows, window `i` starts at
offset `i * (chunkSize - overlap)` and holds the next `chunkSize` tokens,
and concatenating the first `chunkSize - overlap` tokens of every chunk
(the final chunk taken whole) reconstructs the token sequence of the
input. -/
theorem chunk_text_reconstructs (text : String) (chunkSize overlap : Nat)
    (_hpos : 0 < chunkSize) (hov : overlap < chunkSize) :
    chunk_text text chunkSize overlap =
      .ok ((chunkWindows (pySplit text) chunkSize overlap).map (String.intercalate " "))
    ∧ (∀ (i : Nat) (hi : i < (chunkWindows (pySplit text) chunkSize overlap).length),
        (chunkWindows (pySplit text) chunkSize overlap)[i] =
          ((pySplit text).drop (i * (chunkSize - overlap))).take chunkSize)
    ∧ ((chunkWindows (pySplit text) chunkSize overlap).dropLast.map
          (fun c => c.take (chunkSize - overlap))).flatten
        ++ (chunkWindows (pySplit text) chunkSize overlap).getLastD []
        = pySplit text := by
  have hne : ¬ chunkSize = overlap := by omega
  have hlt : ¬ chunkSize < overlap := by omega
  refine ⟨?_, fun i hi => chunkWindows_get _ _ _ i hi,
    chunkWindows_reconstruct _ _ hov _⟩
  unfold chunk_text
  rw [if_neg hne, if_neg hlt]

theorem chunk_text_reconstructs_witness :
    chunk_text "a b c d e" 2 1 =
      .ok ((chunkWindows (pySplit "a b c d e") 2 1).map (String.intercalate " "))
    ∧ ((chunkWindows (pySplit "a b c d e") 2 1).dropLast.map
          (fun c => c.take 1)).flatten
        ++ (chunkWindows (pySplit "a b c d e") 2 1).getLastD []
        = pySplit "a b c d e" :=
  ⟨(chunk_text_reconstructs "a b c d e" 2 1 (by decide) (by decide)).1,
   (chunk_text_reconstructs "a b c d e" 2 1 (by decide) (by decide)).2.2⟩

/-! ## Claim C4 -/

/-- A store configured (as by default) for 1536-dimensional embeddings
would have to reject this record, whose embedding has length 2. -/
def badDoc : MDoc :=
  [("content", .str "Vacation policy text"), ("embedding", .arr [1, 2]),
   ("source", .str "hr_policy.pdf"), ("page", .num 5), ("chunk_index", .num 0)]

/-- A backend whose bulk write accepts every batch, reporting one inserted
id per document. -/
def acceptAllInsert : List MDoc → Except String (List Nat) := fun docs =>
  .ok (List.range docs.length)

/-- C4 counterexample: `insert_documents` performs no dimension check.
A batch containing a record whose embedding has length 2 (≠ 1536, the
configured dimensionality) is passed to the backend bulk write and the
reported count is returned — the batch is persisted, not rejected with a
validation error. -/
theorem insert_documents_no_validation_cex :
    embLen badDoc = some 2 ∧ (2 : Nat) ≠ 1536
    ∧ insert_documents acceptAllInsert [badDoc] = (1, [[badDoc]]) :=
  ⟨by decide, by decide, by decide⟩

/-- C4 amended: `insert_documents` never validates embedding lengths —
every non-empty batch, mismatched embeddings included, is handed to the
backend bulk write unchanged, and the returned count is whatever the
backend reports (0 when the write raises). -/
theorem insert_documents_passes_batch_unvalidated
    (insertMany : List MDoc → Except String (List Nat)) (documents : List MDoc)
    (h : documents ≠ []) :
    (insert_documents insertMany documents).2 = [documents]
    ∧ (insert_documents insertMany documents).1 =
        (match insertMany documents with
         | .ok ids => ids.length
         | .error _ => 0) := by
  cases documents with
  | nil => exact absurd rfl h
  | cons d ds =>
    unfold insert_documents
    simp only [List.isEmpty_cons, Bool.false_eq_true, if_false]
    cases insertMany (d :: ds) <;> simp

theorem insert_documents_passes_batch_unvalidated_witness :
    (insert_documents acceptAllInsert [badDoc]).2 = [[badDoc]]
    ∧ (insert_documents acceptAllInsert [badDoc]).1 =
        (match acceptAllInsert [badDoc] with
         | .ok ids => ids.length
         | .error _ => 0) :=
  insert_documents_passes_batch_unvalidated acceptAllInsert [badDoc] (by decide)

/-! ## Claim C9 -/

/-- A bulk write that always raises. -/
def failInsert : List MDoc → Except String (List Nat) := fun _ =>
  .error "BulkWriteError"

/-- A well-formed one-field demo document. -/
def demoDoc : MDoc := [("content", .str "hello")]

/-- C9: `insert_documents` never raises (the embedding is a total
function); an empty batch returns 0 without touching the backend, a
raising bulk write also returns 0, so the return value cannot tell a
failed write from an empty input. -/
theorem insert_documents_error_indistinguishable
    (insertMany : List MDoc → Except String (List Nat)) (documents : List MDoc)
    (e : String) (he : insertMany documents = .error e) :
    insert_documents insertMany [] = (0, [])
    ∧ (insert_documents insertMany documents).1 = 0
    ∧ (insert_documents insertMany documents).1 = (insert_documents insertMany []).1 := by
  have h2 : (insert_documents insertMany documents).1 = 0 := by
    cases documents with
    | nil => rfl
    | cons d ds => simp [insert_documents, he]
  exact ⟨rfl, h2, by rw [h2]; rfl⟩

theorem insert_documents_error_indistinguishable_witness :
    insert_documents failInsert [] = (0, [])
    ∧ (insert_documents failInsert [demoDoc]).1 = 0
    ∧ (insert_documents failInsert [demoDoc]).1 = (insert_documents failInsert []).1 :=
  insert_documents_error_indistinguishable failInsert [demoDoc] "BulkWriteError" rfl

/-! ## Claim C5 -/

/-- C5: `vector_search` is total (never raises): on an empty collection,
on a backend returning no matches, and on a raising backend it returns
`[]`; any result list has length at most `top_k`; and the results are
ordered by descending `similarity_score`. -/
theorem vector_search_spec (score : MDoc → ℚ) (k : Nat) (coll : List MDoc)
    (msg : String) :
    vector_search (.ok (vectorSearchAgg score k [])) = []
    ∧ vector_search (.ok []) = []
    ∧ vector_search (.error msg) = []
    ∧ (vector_search (.ok (vectorSearchAgg score k coll))).length ≤ k
    ∧ (vector_search (.ok (vectorSearchAgg score k coll))).Pairwise
        (fun a b => ∃ qa qb, scoreOf a = some qa ∧ scoreOf b = some qb ∧ qb ≤ qa) := by
  refine ⟨by simp [vector_search, vectorSearchAgg, cosmosSearchSem, sortDesc],
    rfl, rfl, ?_, ?_⟩
  · simp only [vector_search, vectorSearchAgg, cosmosSearchSem, List.length_map]
    exact le_trans (List.length_take_le k _) le_rfl
  · simp only [vector_search, vectorSearchAgg]
    rw [List.pairwise_map]
    have hsorted : (sortDesc score coll).Pairwise (fun a b => score b ≤ score a) :=
      pairwise_sortDesc score coll
    have htake : (cosmosSearchSem score k coll).Pairwise (fun a b => score b ≤ score a) :=
      hsorted.sublist (List.take_sublist k _)
    exact htake.imp (fun {a b} hab =>
      ⟨score a, score b, scoreOf_projectVectorSearch _ a,
        scoreOf_projectVectorSearch _ b, hab⟩)

/-! ## Claim C10 -/

/-- The only field names a `vector_search` result may carry. -/
def resultFields : List String :=
  ["content", "source", "page", "chunk_index", "similarity_score"]

/-- C10: every result of the `vector_search` projection carries only the
fields `content`, `source`, `page`, `chunk_index` and `similarity_score`;
in particular neither the backend id `_id` nor the stored `embedding`
vector is ever present. -/
theorem projectVectorSearch_fields (score : ℚ) (d : MDoc) :
    (projectVectorSearch score d).all (fun kv => resultFields.contains kv.1) = true
    ∧ mlookup (projectVectorSearch score d) "_id" = none
    ∧ mlookup (projectVectorSearch score d) "embedding" = none := by
  refine ⟨?_, ?_, ?_⟩
  · unfold projectVectorSearch
    simp only [List.all_append, Bool.and_eq_true]
    refine ⟨⟨⟨⟨all_projContent d _ (by decide), all_keepField d _ _ (by decide)⟩,
      all_keepField d _ _ (by decide)⟩, all_keepField d _ _ (by decide)⟩, rfl⟩
  · exact mlookup_projectVectorSearch_ne score d "_id"
      (by decide) (by decide) (by decide) (by decide) (by decide)
  · exact mlookup_projectVectorSearch_ne score d "embedding"
      (by decide) (by decide) (by decide) (by decide) (by decide)

/-! ## Claim C6 -/

/-- A record stored the way `PDFProcessor`/`CosmosVectorDB` stores text:
under the canonical `content` field. -/
def contentOnlyDoc : MDoc :=
  [("content", .str "hello"), ("embedding", .arr [1]), ("source", .str "s.pdf")]

/-- A record stored the way `embed_doc.process_pdf` stores text: under
the legacy `text` field. -/
def textOnlyDoc : MDoc :=
  [("chunk_id", .num 1), ("text", .str "legacy"), ("embedding", .arr [1])]

/-- C6 counterexample: the projection of `Retrieval.search_similar_chunks`
— the search path the orchestrators use to answer queries — includes only
the legacy `text` field.  A record that stores its text under `content`
comes back from that path with no text at all (neither under `text` nor
under `content`), while the `CosmosVectorDB.vector_search` projection does
return it.  The tolerance therefore does not hold on every search path. -/
theorem search_chunks_drops_content_cex :
    mlookup contentOnlyDoc "content" = some (.str "hello")
    ∧ mlookup (projectSearchChunks 1 contentOnlyDoc) "text" = none
    ∧ mlookup (projectSearchChunks 1 contentOnlyDoc) "content" = none
    ∧ mlookup (projectVectorSearch 1 contentOnlyDoc) "content" = some (.str "hello") :=
  ⟨by decide, by decide, by decide, by decide⟩

/-- C6 amended: only `CosmosVectorDB.vector_search` tolerates both
historical field names — it projects the stored text under the canonical
`content` name, preferring a present (non-null) `content` value and
falling back to `text_chunk` otherwise.  `Retrieval.search_similar_chunks`,
the path used to answer queries, instead projects exactly the legacy
`text` field and ignores `content` entirely. -/
theorem text_projection_tolerance (s : ℚ) (d : MDoc) (v : BVal) :
    (mlookup d "content" = some v → v ≠ .null →
      mlookup (projectVectorSearch s d) "content" = some v)
    ∧ (mlookup d "content" = none →
      mlookup (projectVectorSearch s d) "content" = mlookup d "text_chunk")
    ∧ mlookup (projectSearchChunks s d) "text" = mlookup d "text" := by
  refine ⟨?_, ?_, ?_⟩
  · intro hv hnn
    unfold projectVectorSearch
    rw [projContent_of_some d v hv hnn]
    exact mlookup_append_of_some _ _ _ _ (mlookup_append_of_some _ _ _ _
      (mlookup_append_of_some _ _ _ _ (mlookup_append_of_some _ _ _ _
        (by simp [mlookup]))))
  · intro h
    unfold projectVectorSearch
    rw [projContent_of_none d h]
    cases hw : mlookup d "text_chunk" with
    | some w =>
      exact mlookup_append_of_some _ _ _ _ (mlookup_append_of_some _ _ _ _
        (mlookup_append_of_some _ _ _ _ (mlookup_append_of_some _ _ _ _
          (by simp [mlookup]))))
    | none =>
      simp only [List.nil_append]
      have h1 : mlookup (keepField d "source") "content" = none :=
        mlookup_keepField_ne _ _ _ (by decide)
      have h12 :
          mlookup (keepField d "source" ++ keepField d "page") "content" = none := by
        rw [mlookup_append_of_none _ _ _ h1]
        exact mlookup_keepField_ne _ _ _ (by decide)
      have h123 :
          mlookup (keepField d "source" ++ keepField d "page" ++
            keepField d "chunk_index") "content" = none := by
        rw [mlookup_append_of_none _ _ _ h12]
        exact mlookup_keepField_ne _ _ _ (by decide)
      rw [mlookup_append_of_none _ _ _ h123]
      simp [mlookup]
  · have hK12 :
        mlookup (keepField d "chunk_id" ++ keepField d "text") "text" =
          mlookup d "text" := by
      rw [mlookup_append_of_none _ _ _ (mlookup_keepField_ne _ _ _ (by decide))]
      exact mlookup_keepField_self d "text"
    unfold projectSearchChunks
    cases ht : mlookup d "text" with
    | some w =>
      have hs : mlookup (keepField d "chunk_id" ++ keepField d "text") "text" = some w := by
        rw [hK12, ht]
      exact mlookup_append_of_some _ _ _ _ (mlookup_append_of_some _ _ _ _ hs)
    | none =>
      have hn : mlookup (keepField d "chunk_id" ++ keepField d "text") "text" = none := by
        rw [hK12, ht]
      have hn3 :
          mlookup (keepField d "chunk_id" ++ keepField d "text" ++
            keepField d "embedding") "text" = none := by
        rw [mlookup_append_of_none _ _ _ hn]
        exact mlookup_keepField_ne _ _ _ (by decide)
      rw [mlookup_append_of_none _ _ _ hn3]
      simp [mlookup]

theorem text_projection_tolerance_witness :
    mlookup (projectVectorSearch 1 contentOnlyDoc) "content" = some (.str "hello")
    ∧ mlookup (projectSearchChunks 1 textOnlyDoc) "text" = mlookup textOnlyDoc "text" :=
  ⟨(text_projection_tolerance 1 contentOnlyDoc (.str "hello")).1 (by decide) (by decide),
   (text_projection_tolerance 1 textOnlyDoc (.str "legacy")).2.2⟩

/-! ## Claim C7 -/

/-- One retrieved chunk as `search_similar_chunks` returns it. -/
def demoChunk : MDoc := [("text", .str "ctx")]

/-- A primary generation capability that raises. -/
def primaryRaises : String → Except String (Option String) := fun _ =>
  .error "primary exception"

/-- A primary generation capability answering `"hi"`. -/
def primaryHi : String → Except String (Option String) := fun _ =>
  .ok (some "hi")

/-- A fallback generation capability answering `"hi"`. -/
def fallbackHi : String → Except String (Option String) := fun _ =>
  .ok (some "hi")

/-- C7 counterexample: `get_response` returns a bare string, so nothing in
the return value reports that the fallback was used.  A run in which the
primary raises and the fallback answers `"hi"` returns exactly the same
value as a run in which the primary itself answers `"hi"` — even though
the instrumentation shows the fallback was invoked only in the first run.
The `usedFallback=true` report the claim demands does not exist. -/
theorem get_response_no_fallback_report_cex :
    (Agents.get_response (.ok [demoChunk]) primaryRaises fallbackHi "q").1 =
      (Agents.get_response (.ok [demoChunk]) primaryHi fallbackHi "q").1
    ∧ (Agents.get_response (.ok [demoChunk]) primaryRaises fallbackHi "q").2 ≠ []
    ∧ (Agents.get_response (.ok [demoChunk]) primaryHi fallbackHi "q").2 = [] :=
  ⟨by decide, by decide, by decide⟩

/-- C7 amended: whenever the primary capability raises or returns an
empty/`None` response, `get_response` invokes the fallback capability
exactly once, with the self-contained prompt built from the same context
and query, and returns the fallback's output unchanged — but the returned
bare string carries no `usedFallback` indicator. -/
theorem get_response_uses_fallback
    (topChunks : List MDoc) (texts : List String) (userQuery context : String)
    (primary fallback : String → Except String (Option String)) (r : Option String)
    (hctx : context = if topChunks.isEmpty then "" else String.intercalate "\n\n" texts)
    (htexts : chunkTexts topChunks = .ok texts)
    (hprimary :
      (∃ err, primary (agentPrompt agentSystemMessage context userQuery) = .error err)
      ∨ primary (agentPrompt agentSystemMessage context userQuery) = .ok none
      ∨ primary (agentPrompt agentSystemMessage context userQuery) = .ok (some ""))
    (hfb : fallback (orchPrompt context userQuery) = .ok r) :
    Agents.get_response (.ok topChunks) primary fallback userQuery =
      (r, [orchPrompt context userQuery]) := by
  have hfalse :
      truthy (assistantGetResponse primary agentSystemMessage userQuery context) = false := by
    unfold assistantGetResponse
    rcases hprimary with ⟨err, he⟩ | he | he <;> rw [he] <;> rfl
  simp only [Agents.get_response, htexts]
  rw [← hctx]
  simp only [hfalse, Bool.false_eq_true, if_false, hfb]

theorem get_response_uses_fallback_witness :
    Agents.get_response (.ok [demoChunk]) primaryRaises fallbackHi "q" =
      (some "hi", [orchPrompt "ctx" "q"]) :=
  get_response_uses_fallback [demoChunk] ["ctx"] "q" "ctx" primaryRaises fallbackHi
    (some "hi") (by decide) (by decide) (.inl ⟨"primary exception", rfl⟩) rfl

/-! ## Claim C8 -/

/-- A generation capability that raises with message `"boom"`. -/
def genBoom : String → Except String (Option String) := fun _ => .error "boom"

/-- C8 counterexample: on the legacy orchestration path
(src/autogen_module.py), a failing generation call makes `get_response`
return the exception text interpolated into the reply — not the fixed
safe message.  Raw exception text thus does reach the returned value on
one of the orchestration code paths. -/
theorem legacy_error_leak_cex :
    Legacy.get_response (.ok [demoChunk]) genBoom "q" = some (legacyErrPre ++ "boom")
    ∧ strContains (legacyErrPre ++ "boom") "boom" = true
    ∧ Legacy.get_response (.ok [demoChunk]) genBoom "q" ≠ some fixedErrorMsg :=
  ⟨by decide, by decide, by decide⟩

/-- C8 amended: on the agents path, when the primary response is falsy and
the fallback raises, `get_response` returns the fixed user-safe message —
a constant independent of the exception text — and never raises (the
embedding is total).  The legacy path, however, returns the raw exception
text appended to its error prefix. -/
theorem get_response_both_fail_safe
    (topChunks chunks : List MDoc) (texts texts2 : List String)
    (userQuery context q e err : String)
    (primary fallback gen : String → Except String (Option String))
    (hctx : context = if topChunks.isEmpty then "" else String.intercalate "\n\n" texts)
    (htexts : chunkTexts topChunks = .ok texts)
    (hprimary :
      truthy (assistantGetResponse primary agentSystemMessage userQuery context) = false)
    (hfb : fallback (orchPrompt context userQuery) = .error e)
    (hch : chunks ≠ [])
    (htexts2 : chunkTexts chunks = .ok texts2)
    (hgen : gen (legacyPrompt (String.intercalate "\n\n" texts2) q) = .error err) :
    Agents.get_response (.ok topChunks) primary fallback userQuery =
      (some fixedErrorMsg, [orchPrompt context userQuery])
    ∧ Legacy.get_response (.ok chunks) gen q = some (legacyErrPre ++ err) := by
  constructor
  · simp only [Agents.get_response, htexts]
    rw [← hctx]
    simp only [hprimary, Bool.false_eq_true, if_false, hfb]
  · cases chunks with
    | nil => exact absurd rfl hch
    | cons c cs =>
      simp only [Legacy.get_response, List.isEmpty_cons, Bool.false_eq_true,
        if_false, htexts2, hgen]

theorem get_response_both_fail_safe_witness :
    Agents.get_response (.ok [demoChunk]) primaryRaises genBoom "q" =
      (some fixedErrorMsg, [orchPrompt "ctx" "q"])
    ∧ Legacy.get_response (.ok [demoChunk]) genBoom "q" =
      some (legacyErrPre ++ "boom") :=
  get_response_both_fail_safe [demoChunk] [demoChunk] ["ctx"] ["ctx"]
    "q" "ctx" "q" "boom" "boom" primaryRaises genBoom genBoom
    (by decide) (by decide) (by decide) rfl (by decide) (by decide) rfl

end Capstone
